import Mathlib

/-!
Verification of the real-time job-progress tracking core of the
case-study-app repository (ProcessingProvider in `src/unnamed/part_005`
and the batch-progress aggregators in
`src/src/components/UploadInvoicesModal.tsx`).

The TypeScript code is shallowly embedded: the `jobs` `Map<string,
ProcessingJob>` becomes an insertion-ordered association list, the
`task_update` socket handler becomes the pure function `applyTaskUpdate`,
JavaScript truthiness (used by the `result || job.result` and
`error || job.error` merges) is modelled by a small `JsValue` type, and
the asynchronous boundary calls of `startBatchProcessing` (file upload,
batch-creation HTTP call) are passed in as explicit `Except` outcomes.
-/

namespace CaseStudy

/-- Job status, from the `ProcessingJob` interface:
`"pending" | "processing" | "completed" | "failed"`. -/
inductive JobStatus where
  | pending
  | processing
  | completed
  | failed
deriving DecidableEq, Repr

/-- A JavaScript value, as far as the handler's truthiness tests care:
the `result` field is `any` and `error` is `string | undefined`, and both
are merged with `||`, so falsiness (undefined, null, false, 0, "") must be
modelled. `vObj` is an opaque object identity (objects are always truthy). -/
inductive JsValue where
  | vUndefined
  | vNull
  | vBool (b : Bool)
  | vNum (n : Int)
  | vStr (s : String)
  | vObj (id : Nat)
deriving DecidableEq, Repr

/-- JavaScript truthiness. -/
def JsValue.truthy : JsValue → Bool
  | .vUndefined => false
  | .vNull => false
  | .vBool b => b
  | .vNum n => n != 0
  | .vStr s => s != ""
  | .vObj _ => true

/-- JavaScript `a || b`. -/
def jsOr (a b : JsValue) : JsValue := if a.truthy then a else b

/-- The `ProcessingJob` record of ProcessingProvider:
`{ task_id, filename, status, progress, result?, error? }`.
`progress` is a JS number holding an integer 0-100 in practice; absent
optional fields are `vUndefined`. -/
structure ProcessingJob where
  task_id : String
  filename : String
  status : JobStatus
  progress : Int
  result : JsValue
  error : JsValue
deriving DecidableEq, Repr

/-- The destructured payload of a `task_update` socket event:
`const { task_id, type, status, progress, result, error, filename } = data`.
Only `task_id`, `type`, `progress`, `result`, `error` are used by the
handler (the destructured `status` and `filename` are ignored), so only
those are modelled. `type = none` models an absent/undefined discriminant;
`progress = none` models the `progress !== undefined && progress !== null`
guard failing. -/
structure TaskUpdate where
  task_id : String
  type : Option String
  progress : Option Int
  result : JsValue
  error : JsValue
deriving DecidableEq, Repr

/-- The per-job body of the `task_update` handler
(`src/unnamed/part_005` lines 121-148), applied once the job was found:

* map the backend `type` to a status (`complete`→completed,
  `error`→failed, `progress`/`stage_start`→processing, otherwise keep);
* if `progress` is present, clamp it to [0,100] (`Math.min(100, Math.max(0, progress))`);
* if the (new) status is completed, force progress to 100;
* merge `result: result || job.result` and `error: error || job.error`. -/
def updateJob (job : ProcessingJob) (ev : TaskUpdate) : ProcessingJob :=
  let jobStatus : JobStatus :=
    if ev.type = some "complete" then .completed
    else if ev.type = some "error" then .failed
    else if ev.type = some "progress" || ev.type = some "stage_start" then .processing
    else job.status
  let clamped : Int :=
    match ev.progress with
    | some p => min 100 (max 0 p)
    | none => job.progress
  let updatedProgress : Int := if jobStatus = .completed then 100 else clamped
  { job with
      status := jobStatus
      progress := updatedProgress
      result := jsOr ev.result job.result
      error := jsOr ev.error job.error }

/-- The jobs registry: a JS `Map<string, ProcessingJob>`, modelled as an
insertion-ordered association list. -/
abbrev JobsMap := List (String × ProcessingJob)

/-- `Map.get`: first (unique) binding of the key, if any. -/
def mapGet (m : JobsMap) (k : String) : Option ProcessingJob :=
  match m.find? (fun p => p.1 = k) with
  | some p => some p.2
  | none => none

/-- `Map.set`: replace the binding in place if the key exists (JS `Map`
keeps the original insertion position), else append. -/
def mapSet (m : JobsMap) (k : String) (v : ProcessingJob) : JobsMap :=
  if m.any (fun p => p.1 = k) then
    m.map (fun p => if p.1 = k then (k, v) else p)
  else m ++ [(k, v)]

/-- The whole `task_update` handler (`src/unnamed/part_005` lines
108-154): look the task up; if unknown, return the previous map
unchanged (`if (!job) ... return prev`); otherwise store the merged
record under the same key. -/
def applyTaskUpdate (m : JobsMap) (ev : TaskUpdate) : JobsMap :=
  match mapGet m ev.task_id with
  | none => m
  | some job => mapSet m ev.task_id (updateJob job ev)

/-- The record seeded for one created task
(`src/unnamed/part_005` lines 245-250):
`{ task_id, filename: files[index].name, status: "pending", progress: 0 }`;
`result` and `error` are left absent. -/
def mkPendingJob (taskId filename : String) : ProcessingJob :=
  { task_id := taskId
    filename := filename
    status := .pending
    progress := 0
    result := .vUndefined
    error := .vUndefined }

/-- The seeding loop of `startBatchProcessing`
(`task_ids.forEach((task_id, index) => ...)`, lines 241-255): for each
`task_id` in order, `set` a fresh pending record using `files[index].name`
and emit a `join_task` signal. The two lists advance together, so they are
consumed in lockstep; if `task_ids` is longer than `files`,
`files[index]` is `undefined` and `.name` throws a TypeError, modelled as
`none`. Returns the seeded map and the ordered list of `join_task`
task ids. -/
def seedJobs (m : JobsMap) : List String → List String →
    Option (JobsMap × List String)
  | [], _ => some (m, [])
  | _ :: _, [] => none
  | t :: ts, f :: fs =>
    match seedJobs (mapSet m t (mkPendingJob t f)) ts fs with
    | none => none
    | some (m2, joins) => some (m2, t :: joins)

/-- `startBatchProcessing` (`src/unnamed/part_005` lines 186-270),
with its awaited boundary effects passed in as explicit outcomes:
`uploadResult` is the outcome of uploading all files to blob storage
(`Promise.all` of `uploadToVercelBlob`, which throws
"Failed to upload file" on a non-ok response), and `batchResult` is the
outcome of the `/api/v1/invoices/process-batch` call (the thrown
`errorData.error || "Failed to start batch processing"` message on
failure, the returned `task_ids` on success).

Control flow of the source:
* if the socket is not connected, throw `"WebSocket not connected"`
  before anything else;
* if any upload rejects, the error propagates (the registry is untouched,
  since `setJobs` only runs later);
* if the batch call fails, the thrown error propagates the same way;
* on success, seed the registry per `seedJobs` and return the backend's
  `task_ids` unchanged.

The result is `(outcome, final registry, emitted join_task ids)`; the
registry and join list equal the inputs (`m`, `[]`) on every failure
path. -/
def startBatchProcessing (connected : Bool) (m : JobsMap)
    (files : List String) (uploadResult : Except String Unit)
    (batchResult : Except String (List String)) :
    Except String (List String) × JobsMap × List String :=
  if !connected then (.error "WebSocket not connected", m, [])
  else
    match uploadResult with
    | .error e => (.error e, m, [])
    | .ok _ =>
      match batchResult with
      | .error e => (.error e, m, [])
      | .ok taskIds =>
        match seedJobs m taskIds files with
        | none => (.error "TypeError", m, [])
        | some (m2, joins) => (.ok taskIds, m2, joins)

/-- `cancelJob` (`src/unnamed/part_005` lines 272-302), with the outcome
of the `POST /api/jobs/:id/cancel` call passed in as `httpOk`. When the
call succeeds and the task is in the registry, the job is overwritten
with `status: "failed", error: "Cancelled by user"` unconditionally —
there is no check of the job's current status. When the call fails the
thrown error is caught (toast only) and the registry is untouched. -/
def cancelJob (m : JobsMap) (taskId : String) (httpOk : Bool) : JobsMap :=
  if httpOk then
    match mapGet m taskId with
    | none => m
    | some job =>
        mapSet m taskId { job with status := .failed, error := .vStr "Cancelled by user" }
  else m

/-- JS `x || 0` applied to a job's numeric `progress`
(`job?.progress || 0` in the modal's reducer). -/
def jsOrZero (x : Int) : Int := if x = 0 then 0 else x

/-- JS `Math.round (a / b)` for integer `a` and positive integer `b`:
round half toward positive infinity, i.e. `⌊a/b + 1/2⌋`. -/
def jsRoundDiv (a b : Int) : Int := Int.fdiv (2 * a + b) (2 * b)

/-- `overallProgress` (`src/src/components/UploadInvoicesModal.tsx`
lines 68-75): 0 for an empty tracked list, otherwise
`Math.round` of `reduce((sum, job) => sum + (job?.progress || 0), 0)`
divided by the number of tracked jobs. -/
def overallProgress (trackedJobs : List ProcessingJob) : Int :=
  if trackedJobs.length = 0 then 0
  else
    let total := trackedJobs.foldl (fun sum job => sum + jsOrZero job.progress) 0
    jsRoundDiv total trackedJobs.length

/-- `allJobsComplete` (`src/src/components/UploadInvoicesModal.tsx`
lines 78-83): false for an empty tracked list, otherwise
`every(job => job?.status === "completed" || job?.status === "failed")`. -/
def allJobsComplete (trackedJobs : List ProcessingJob) : Bool :=
  if trackedJobs.length = 0 then false
  else trackedJobs.all fun job =>
    job.status = .completed || job.status = .failed

/-! ### Registry lemmas -/

theorem mapGet_cons (x : String × ProcessingJob) (m : JobsMap) (k : String) :
    mapGet (x :: m) k = if x.1 = k then some x.2 else mapGet m k := by
  by_cases h : x.1 = k <;> simp [mapGet, List.find?_cons, h]

theorem mapSet_cons_of_ne (x : String × ProcessingJob) (m : JobsMap)
    (k : String) (v : ProcessingJob) (h : ¬ x.1 = k) :
    mapSet (x :: m) k v = x :: mapSet m k v := by
  by_cases hm : m.any (fun p => p.1 = k) <;>
    simp [mapSet, List.any_cons, h, hm]

theorem mapSet_cons_of_eq (x : String × ProcessingJob) (m : JobsMap)
    (k : String) (v : ProcessingJob) (h : x.1 = k) :
    mapSet (x :: m) k v =
      (k, v) :: m.map (fun p => if p.1 = k then (k, v) else p) := by
  simp [mapSet, List.any_cons, h]

theorem mapGet_mapSet_self (m : JobsMap) (k : String) (v : ProcessingJob) :
    mapGet (mapSet m k v) k = some v := by
  induction m with
  | nil => simp [mapSet, mapGet]
  | cons x m ih =>
    by_cases h : x.1 = k
    · rw [mapSet_cons_of_eq x m k v h, mapGet_cons]
      simp
    · rw [mapSet_cons_of_ne x m k v h, mapGet_cons]
      simp [h, ih]

theorem mapGet_map_subst (m : JobsMap) (k t : String) (v : ProcessingJob)
    (h : ¬ k = t) :
    mapGet (m.map (fun p => if p.1 = k then (k, v) else p)) t = mapGet m t := by
  induction m with
  | nil => simp [mapGet]
  | cons y m ihm =>
    by_cases hy : y.1 = k
    · rw [List.map_cons, mapGet_cons, mapGet_cons]
      have hyt : ¬ y.1 = t := by rw [hy]; exact h
      simp [hy, h, hyt, ihm]
    · rw [List.map_cons, mapGet_cons, mapGet_cons]
      simp [hy, ihm]

theorem mapGet_mapSet_ne (m : JobsMap) (k t : String) (v : ProcessingJob)
    (h : ¬ k = t) : mapGet (mapSet m k v) t = mapGet m t := by
  induction m with
  | nil => simp [mapSet, mapGet, List.find?_cons, h]
  | cons x m ih =>
    by_cases hx : x.1 = k
    · rw [mapSet_cons_of_eq x m k v hx, mapGet_cons, mapGet_cons]
      have hxt : ¬ x.1 = t := by rw [hx]; exact h
      simp only [h, hxt, if_false]
      exact mapGet_map_subst m k t v h
    · rw [mapSet_cons_of_ne x m k v hx, mapGet_cons, mapGet_cons, ih]

theorem mapSet_mapSet_self (m : JobsMap) (k : String)
    (v w : ProcessingJob) : mapSet (mapSet m k v) k w = mapSet m k w := by
  induction m with
  | nil => simp [mapSet]
  | cons x m ih =>
    by_cases h : x.1 = k
    · rw [mapSet_cons_of_eq x m k v h]
      rw [mapSet_cons_of_eq ((k, v)) _ k w rfl, mapSet_cons_of_eq x m k w h]
      congr 1
      rw [List.map_map]
      apply List.map_congr_left
      intro a _
      by_cases ha : a.1 = k <;> simp [ha]
    · rw [mapSet_cons_of_ne x m k v h, mapSet_cons_of_ne x _ k w h,
        mapSet_cons_of_ne x m k w h, ih]

/-! ### Merge-rule lemmas -/

theorem jsOr_of_truthy (a b : JsValue) (h : a.truthy = true) :
    jsOr a b = a := by simp [jsOr, h]

theorem jsOr_of_not_truthy (a b : JsValue) (h : a.truthy = false) :
    jsOr a b = b := by simp [jsOr, h]

theorem jsOr_absorb (a b : JsValue) : jsOr a (jsOr a b) = jsOr a b := by
  unfold jsOr
  by_cases h : a.truthy <;> simp [h]

theorem updateJob_complete_idem (job : ProcessingJob) (ev : TaskUpdate)
    (h : ev.type = some "complete") :
    updateJob (updateJob job ev) ev = updateJob job ev := by
  simp [updateJob, h, jsOr_absorb]

theorem updateJob_result_eq (job : ProcessingJob) (ev : TaskUpdate) :
    (updateJob job ev).result = jsOr ev.result job.result := rfl

theorem updateJob_error_eq (job : ProcessingJob) (ev : TaskUpdate) :
    (updateJob job ev).error = jsOr ev.error job.error := rfl

theorem updateJob_progress_eq (job : ProcessingJob) (ev : TaskUpdate) :
    (updateJob job ev).progress =
      if (updateJob job ev).status = .completed then 100
      else
        match ev.progress with
        | some p => min 100 (max 0 p)
        | none => job.progress := rfl

/-! ### Aggregator lemmas -/

theorem jsOrZero_eq (x : Int) : jsOrZero x = x := by
  by_cases h : x = 0 <;> simp [jsOrZero, h]

theorem foldl_progress_sum (jobs : List ProcessingJob) :
    ∀ a : Int, jobs.foldl (fun sum job => sum + jsOrZero job.progress) a =
      a + (jobs.map fun j => j.progress).sum := by
  induction jobs with
  | nil => intro a; simp
  | cons j js ih =>
    intro a
    rw [List.foldl_cons, ih, List.map_cons, List.sum_cons, jsOrZero_eq,
      add_assoc]

/-! ### Seeding lemmas -/

theorem seedJobs_length_ok (ts : List String) :
    ∀ (fs : List String) (m : JobsMap), ts.length ≤ fs.length →
      ∃ m2, seedJobs m ts fs = some (m2, ts) := by
  induction ts with
  | nil => exact fun fs m _ => ⟨m, rfl⟩
  | cons t ts ih =>
    intro fs m hlen
    cases fs with
    | nil => simp at hlen
    | cons f fs =>
      have hl : ts.length ≤ fs.length := by simpa using hlen
      obtain ⟨m2, h2⟩ := ih fs (mapSet m t (mkPendingJob t f)) hl
      exact ⟨m2, by simp [seedJobs, h2]⟩

theorem seedJobs_preserves (ts : List String) :
    ∀ (fs : List String) (m m2 : JobsMap) (joins : List String) (t : String),
      seedJobs m ts fs = some (m2, joins) → ¬ t ∈ ts →
      mapGet m2 t = mapGet m t := by
  induction ts with
  | nil =>
    intro fs m m2 joins t h _
    simp only [seedJobs, Option.some.injEq, Prod.mk.injEq] at h
    rw [← h.1]
  | cons t0 ts ih =>
    intro fs m m2 joins t h hmem
    cases fs with
    | nil => simp [seedJobs] at h
    | cons f0 fs =>
      simp only [seedJobs] at h
      cases hs : seedJobs (mapSet m t0 (mkPendingJob t0 f0)) ts fs with
      | none => rw [hs] at h; simp at h
      | some p =>
        obtain ⟨m3, joins3⟩ := p
        rw [hs] at h
        simp only [Option.some.injEq, Prod.mk.injEq] at h
        obtain ⟨hm2, _⟩ := h
        have htail : ¬ t ∈ ts := fun hmt => hmem (List.mem_cons_of_mem _ hmt)
        have hne : ¬ t0 = t := fun hh => hmem (hh ▸ List.mem_cons_self t0 ts)
        rw [← hm2, ih fs _ m3 joins3 t hs htail,
          mapGet_mapSet_ne m t0 t (mkPendingJob t0 f0) hne]

theorem seedJobs_mapGet (ts : List String) :
    ∀ (fs : List String) (m m2 : JobsMap) (joins : List String),
      seedJobs m ts fs = some (m2, joins) → ts.Nodup →
      ∀ t f, (t, f) ∈ ts.zip fs →
        mapGet m2 t = some (mkPendingJob t f) := by
  induction ts with
  | nil => intro fs m m2 joins _ _ t f hmem; simp at hmem
  | cons t0 ts ih =>
    intro fs m m2 joins h hnd t f hmem
    cases fs with
    | nil => simp at hmem
    | cons f0 fs =>
      simp only [seedJobs] at h
      cases hs : seedJobs (mapSet m t0 (mkPendingJob t0 f0)) ts fs with
      | none => rw [hs] at h; simp at h
      | some p =>
        obtain ⟨m3, joins3⟩ := p
        rw [hs] at h
        simp only [Option.some.injEq, Prod.mk.injEq] at h
        obtain ⟨hm2, _⟩ := h
        rw [List.zip_cons_cons, List.mem_cons, Prod.mk.injEq] at hmem
        rcases hmem with ⟨rfl, rfl⟩ | hmem
        · have hnotin : ¬ t ∈ ts := (List.nodup_cons.mp hnd).1
          rw [← hm2, seedJobs_preserves ts fs _ m3 joins3 t hs hnotin,
            mapGet_mapSet_self]
        · rw [← hm2]
          exact ih fs _ m3 joins3 hs (List.nodup_cons.mp hnd).2 t f hmem

/-! ### Claim theorems -/

/-- C1 (counterexample): terminal stickiness fails on the code. A job that
is already completed (progress 100) receives a late
`{type: "progress", progress: 40}` event, and the handler rewrites its
status to processing and its progress down to 40: the stored record is
not left unchanged. -/
theorem c1_counterexample :
    mapGet
        (applyTaskUpdate
          [("t1", ⟨"t1", "a.pdf", .completed, 100, .vObj 0, .vUndefined⟩)]
          ⟨"t1", some "progress", some 40, .vUndefined, .vUndefined⟩) "t1" =
      some ⟨"t1", "a.pdf", .processing, 40, .vObj 0, .vUndefined⟩ ∧
    ¬ mapGet
        (applyTaskUpdate
          [("t1", ⟨"t1", "a.pdf", .completed, 100, .vObj 0, .vUndefined⟩)]
          ⟨"t1", some "progress", some 40, .vUndefined, .vUndefined⟩) "t1" =
      some ⟨"t1", "a.pdf", .completed, 100, .vObj 0, .vUndefined⟩ := by
  constructor
  · rfl
  · decide

/-- C1 (amended): the `task_update` handler has no terminal-state guard.
A progress or stage_start event received for a job whose status is already
completed or failed sets the job's status back to processing (and its
progress to the event's clamped value, per C2); only `result` and `error`
are left unchanged, and only because the event carries falsy values for
them. -/
theorem c1_terminal_not_sticky (job : ProcessingJob) (ev : TaskUpdate)
    (_hterm : job.status = .completed ∨ job.status = .failed)
    (hty : ev.type = some "progress" ∨ ev.type = some "stage_start") :
    (updateJob job ev).status = .processing ∧
    (ev.result.truthy = false → (updateJob job ev).result = job.result) ∧
    (ev.error.truthy = false → (updateJob job ev).error = job.error) := by
  have hst : (updateJob job ev).status = .processing := by
    rcases hty with hty | hty <;> simp [updateJob, hty]
  refine ⟨hst, fun hr => ?_, fun he => ?_⟩
  · rw [updateJob_result_eq, jsOr_of_not_truthy _ _ hr]
  · rw [updateJob_error_eq, jsOr_of_not_truthy _ _ he]

/-- C1 (witness): the amended theorem applied to a concrete completed job
and a concrete late progress event. -/
theorem c1_terminal_not_sticky_witness :
    (updateJob ⟨"t1", "a.pdf", .completed, 100, .vObj 0, .vUndefined⟩
        ⟨"t1", some "progress", some 40, .vUndefined, .vUndefined⟩).status =
      .processing ∧
    (updateJob ⟨"t1", "a.pdf", .completed, 100, .vObj 0, .vUndefined⟩
        ⟨"t1", some "progress", some 40, .vUndefined, .vUndefined⟩).result =
      .vObj 0 :=
  let h := c1_terminal_not_sticky
    ⟨"t1", "a.pdf", .completed, 100, .vObj 0, .vUndefined⟩
    ⟨"t1", some "progress", some 40, .vUndefined, .vUndefined⟩
    (Or.inl rfl) (Or.inl rfl)
  ⟨h.1, h.2.1 rfl⟩

/-- C2 (counterexample): monotonic progress fails on the code. A job that
has left pending (status processing, progress 50) receives a
`{type: "progress", progress: 30}` event and its stored progress drops
from 50 to 30: there is no monotonic guard. -/
theorem c2_counterexample :
    mapGet
        (applyTaskUpdate
          [("t1", ⟨"t1", "a.pdf", .processing, 50, .vUndefined, .vUndefined⟩)]
          ⟨"t1", some "progress", some 30, .vUndefined, .vUndefined⟩) "t1" =
      some ⟨"t1", "a.pdf", .processing, 30, .vUndefined, .vUndefined⟩ ∧
    (30 : Int) < 50 ∧
    ¬ (JobStatus.processing = JobStatus.pending) := by
  exact ⟨rfl, by decide, by decide⟩

/-- C2 (amended): the handler clamps an incoming progress value to
[0,100] and applies it regardless of the stored value (progress may
decrease), and forces progress to exactly 100 whenever the resulting
status is completed. -/
theorem c2_progress_clamped_not_monotonic (job : ProcessingJob)
    (ev : TaskUpdate) :
    ((updateJob job ev).status = .completed →
      (updateJob job ev).progress = 100) ∧
    (∀ p, ev.progress = some p → ¬ (updateJob job ev).status = .completed →
      (updateJob job ev).progress = min 100 (max 0 p)) := by
  constructor
  · intro h
    rw [updateJob_progress_eq, if_pos h]
  · intro p hp h
    rw [updateJob_progress_eq, if_neg h]
    simp [hp]

/-- C2 (witness): the amended theorem applied to a concrete complete
event (progress forced to 100) and a concrete regressing progress event
(clamped value applied even though it is lower). -/
theorem c2_progress_witness :
    (updateJob ⟨"t1", "a.pdf", .processing, 50, .vUndefined, .vUndefined⟩
        ⟨"t1", some "complete", none, .vObj 0, .vUndefined⟩).progress = 100 ∧
    (updateJob ⟨"t1", "a.pdf", .processing, 50, .vUndefined, .vUndefined⟩
        ⟨"t1", some "progress", some 30, .vUndefined, .vUndefined⟩).progress =
      min 100 (max 0 30) :=
  ⟨(c2_progress_clamped_not_monotonic
      ⟨"t1", "a.pdf", .processing, 50, .vUndefined, .vUndefined⟩
      ⟨"t1", some "complete", none, .vObj 0, .vUndefined⟩).1 rfl,
   (c2_progress_clamped_not_monotonic
      ⟨"t1", "a.pdf", .processing, 50, .vUndefined, .vUndefined⟩
      ⟨"t1", some "progress", some 30, .vUndefined, .vUndefined⟩).2 30 rfl
      (by decide)⟩

/-- C4: unknown-job safety. A `task_update` event whose `task_id` is not
a key of the registry leaves the registry exactly as it was (the handler
returns `prev`); in particular no record is added or changed, and the
handler is a total function, so it cannot throw. -/
theorem c4_unknown_task_no_mutation (m : JobsMap) (ev : TaskUpdate)
    (h : mapGet m ev.task_id = none) : applyTaskUpdate m ev = m := by
  simp [applyTaskUpdate, h]

/-- C4 (witness): a concrete registry holding task "t1" receives an
event for unknown task "t2" and is returned unchanged. -/
theorem c4_unknown_task_witness :
    mapGet
        [("t1", (⟨"t1", "a.pdf", .pending, 0, .vUndefined, .vUndefined⟩ :
          ProcessingJob))] "t2" = none ∧
    applyTaskUpdate
        [("t1", ⟨"t1", "a.pdf", .pending, 0, .vUndefined, .vUndefined⟩)]
        ⟨"t2", some "progress", some 30, .vUndefined, .vUndefined⟩ =
      [("t1", ⟨"t1", "a.pdf", .pending, 0, .vUndefined, .vUndefined⟩)] :=
  ⟨rfl,
   c4_unknown_task_no_mutation
     [("t1", ⟨"t1", "a.pdf", .pending, 0, .vUndefined, .vUndefined⟩)]
     ⟨"t2", some "progress", some 30, .vUndefined, .vUndefined⟩ rfl⟩

/-- C7 (counterexample): write-once result fails on the code. A job whose
`result` is already the non-null "r1" receives a complete event carrying
result "r2", and the stored result becomes "r2": the merge
`result: result || job.result` lets the latest truthy value win, not the
first. -/
theorem c7_counterexample :
    mapGet
        (applyTaskUpdate
          [("t1", ⟨"t1", "a.pdf", .processing, 50, .vStr "r1", .vUndefined⟩)]
          ⟨"t1", some "complete", none, .vStr "r2", .vUndefined⟩) "t1" =
      some ⟨"t1", "a.pdf", .completed, 100, .vStr "r2", .vUndefined⟩ ∧
    ¬ (JsValue.vStr "r2" = JsValue.vStr "r1") := by
  exact ⟨rfl, by decide⟩

/-- C7 (amended): `result` and `error` merge last-truthy-wins, not
write-once: for every job and event, the stored result (resp. error)
after the event is the event's value whenever that value is truthy, and
the previously stored value only when the event's value is falsy
(undefined/null/""/0/false). -/
theorem c7_last_truthy_wins (job : ProcessingJob) (ev : TaskUpdate) :
    ((updateJob job ev).result =
      if ev.result.truthy then ev.result else job.result) ∧
    ((updateJob job ev).error =
      if ev.error.truthy then ev.error else job.error) := by
  constructor <;> simp [updateJob, jsOr]

/-- C3: submission failure atomicity. When the socket is not connected,
`startBatchProcessing` throws "WebSocket not connected"; when any upload
rejects or the batch-creation call fails, that error is rethrown to the
caller. On every one of these failure paths the returned registry is the
input registry (zero new entries) and no `join_task` signal is emitted. -/
theorem c3_submission_atomicity (m : JobsMap) (files : List String)
    (uploadResult : Except String Unit)
    (batchResult : Except String (List String)) :
    (startBatchProcessing false m files uploadResult batchResult =
      (.error "WebSocket not connected", m, [])) ∧
    (∀ e, startBatchProcessing true m files (.error e) batchResult =
      (.error e, m, [])) ∧
    (∀ e, startBatchProcessing true m files (.ok ()) (.error e) =
      (.error e, m, [])) :=
  ⟨rfl, fun _ => rfl, fun _ => rfl⟩

/-- C8: idempotent completion. Delivering the same complete event twice
in succession yields exactly the same registry (and hence the same final
job record) as delivering it once: the second delivery recomputes the
same completed record (status and forced progress are stable, and the
`||` merges absorb a repeated write). -/
theorem c8_idempotent_completion (m : JobsMap) (ev : TaskUpdate)
    (h : ev.type = some "complete") :
    applyTaskUpdate (applyTaskUpdate m ev) ev = applyTaskUpdate m ev := by
  unfold applyTaskUpdate
  match hm : mapGet m ev.task_id with
  | none => simp [hm]
  | some job =>
    simp only [hm, mapGet_mapSet_self]
    rw [updateJob_complete_idem job ev h, mapSet_mapSet_self]

/-- C8 (witness): the idempotence theorem applied to a concrete registry
and a concrete complete event. -/
theorem c8_idempotent_completion_witness :
    applyTaskUpdate
        (applyTaskUpdate
          [("t1", ⟨"t1", "a.pdf", .processing, 50, .vUndefined, .vUndefined⟩)]
          ⟨"t1", some "complete", some 100, .vObj 0, .vUndefined⟩)
        ⟨"t1", some "complete", some 100, .vObj 0, .vUndefined⟩ =
      applyTaskUpdate
        [("t1", ⟨"t1", "a.pdf", .processing, 50, .vUndefined, .vUndefined⟩)]
        ⟨"t1", some "complete", some 100, .vObj 0, .vUndefined⟩ :=
  c8_idempotent_completion
    [("t1", ⟨"t1", "a.pdf", .processing, 50, .vUndefined, .vUndefined⟩)]
    ⟨"t1", some "complete", some 100, .vObj 0, .vUndefined⟩ rfl

/-- C9 (counterexample): malformed-event discard fails on the code. An
event with the unrecognized kind "bogus" but a progress payload of 70,
delivered to a processing job at progress 50, leaves the status alone but
still applies the progress: the stored record is not left unchanged. -/
theorem c9_counterexample :
    mapGet
        (applyTaskUpdate
          [("t1", ⟨"t1", "a.pdf", .processing, 50, .vUndefined, .vUndefined⟩)]
          ⟨"t1", some "bogus", some 70, .vUndefined, .vUndefined⟩) "t1" =
      some ⟨"t1", "a.pdf", .processing, 70, .vUndefined, .vUndefined⟩ ∧
    ¬ (70 : Int) = 50 := by
  exact ⟨rfl, by decide⟩

/-- C9 (amended): an event whose kind is none of stage_start, progress,
complete, error leaves the job's status unchanged and cannot throw (the
handler is total), but its payload is still merged: the record is fully
unchanged only when the event also carries no progress value and falsy
result and error fields (given the maintained invariant that a completed
job stores progress 100). -/
theorem c9_unrecognized_kind (job : ProcessingJob) (ev : TaskUpdate)
    (h1 : ¬ ev.type = some "complete") (h2 : ¬ ev.type = some "error")
    (h3 : ¬ ev.type = some "progress") (h4 : ¬ ev.type = some "stage_start")
    (hinv : job.status = .completed → job.progress = 100) :
    (updateJob job ev).status = job.status ∧
    (ev.progress = none → ev.result.truthy = false →
      ev.error.truthy = false → updateJob job ev = job) := by
  have hst : (updateJob job ev).status = job.status := by
    simp [updateJob, h1, h2, h3, h4]
  refine ⟨hst, fun hp hr he => ?_⟩
  have hpr : (updateJob job ev).progress = job.progress := by
    rw [updateJob_progress_eq, hp]
    by_cases hc : (updateJob job ev).status = .completed
    · rw [if_pos hc]
      rw [hst] at hc
      exact (hinv hc).symm
    · rw [if_neg hc]
  have hres : (updateJob job ev).result = job.result := by
    rw [updateJob_result_eq, jsOr_of_not_truthy _ _ hr]
  have herr : (updateJob job ev).error = job.error := by
    rw [updateJob_error_eq, jsOr_of_not_truthy _ _ he]
  cases job with
  | mk t f s p r e =>
    cases hj : updateJob ⟨t, f, s, p, r, e⟩ ev with
    | mk t2 f2 s2 p2 r2 e2 =>
      rw [hj] at hst hpr hres herr
      have ht2 : t2 = t := by rw [show t2 = (updateJob ⟨t, f, s, p, r, e⟩ ev).task_id from by rw [hj], updateJob]
      have hf2 : f2 = f := by rw [show f2 = (updateJob ⟨t, f, s, p, r, e⟩ ev).filename from by rw [hj], updateJob]
      simp_all

/-- C9 (witness): the amended theorem applied to a concrete processing
job and a concrete payload-free event of unrecognized kind "bogus". -/
theorem c9_unrecognized_kind_witness :
    (updateJob ⟨"t1", "a.pdf", .processing, 50, .vUndefined, .vUndefined⟩
        ⟨"t1", some "bogus", none, .vUndefined, .vUndefined⟩).status =
      JobStatus.processing ∧
    updateJob ⟨"t1", "a.pdf", .processing, 50, .vUndefined, .vUndefined⟩
        ⟨"t1", some "bogus", none, .vUndefined, .vUndefined⟩ =
      ⟨"t1", "a.pdf", .processing, 50, .vUndefined, .vUndefined⟩ :=
  let h := c9_unrecognized_kind
    ⟨"t1", "a.pdf", .processing, 50, .vUndefined, .vUndefined⟩
    ⟨"t1", some "bogus", none, .vUndefined, .vUndefined⟩
    (by decide) (by decide) (by decide) (by decide)
    (fun hc => absurd hc (by decide))
  ⟨h.1, h.2 rfl rfl rfl⟩

/-- C10: `cancelJob` with a successful HTTP cancel call overwrites any
registered job — whatever its current status, including completed and
failed jobs — with status failed and error "Cancelled by user",
discarding the previously stored error. -/
theorem c10_cancel_overwrites_any_status (m : JobsMap) (taskId : String)
    (job : ProcessingJob) (h : mapGet m taskId = some job) :
    mapGet (cancelJob m taskId true) taskId =
      some { job with status := .failed, error := .vStr "Cancelled by user" } := by
  simp only [cancelJob, if_pos trivial, h]
  rw [mapGet_mapSet_self]

/-- C10 (witness): cancelling a concrete already-completed job replaces
its terminal status and stored error. -/
theorem c10_cancel_witness :
    mapGet
        (cancelJob
          [("t1", ⟨"t1", "a.pdf", .completed, 100, .vObj 0, .vStr "old"⟩)]
          "t1" true) "t1" =
      some ⟨"t1", "a.pdf", .failed, 100, .vObj 0, .vStr "Cancelled by user"⟩ :=
  c10_cancel_overwrites_any_status
    [("t1", ⟨"t1", "a.pdf", .completed, 100, .vObj 0, .vStr "old"⟩)] "t1"
    ⟨"t1", "a.pdf", .completed, 100, .vObj 0, .vStr "old"⟩ rfl

/-- C5 (counterexample): the "all complete iff every job terminal" half
of the claim fails for the empty set of tracked jobs: `allJobsComplete`
is hard-coded to false on an empty list, while "every job in the set has
a terminal status" holds vacuously (the boolean `all` of the terminal
test is true on the empty list). -/
theorem c5_counterexample :
    allJobsComplete [] = false ∧
    ([] : List ProcessingJob).all
        (fun job => job.status = .completed || job.status = .failed) = true := by
  exact ⟨rfl, rfl⟩

/-- C5 (amended): for every nonempty set of tracked jobs, the batch
aggregate progress is `Math.round` of the arithmetic mean of the jobs'
progress values and "all complete" holds iff every tracked job has a
terminal status; the empty set is special-cased to aggregate progress 0
and "all complete" false. In particular, for jobs with progress
[0, 50, 100] and statuses [pending, processing, completed] the aggregate
is exactly 50 and "all complete" is false, and once all three are
terminal it is true. -/
theorem c5_aggregate_correctness (jobs : List ProcessingJob)
    (h : ¬ jobs = []) :
    overallProgress jobs =
      jsRoundDiv ((jobs.map fun j => j.progress).sum) (jobs.length : Int) ∧
    (allJobsComplete jobs = true ↔
      ∀ job ∈ jobs, job.status = .completed ∨ job.status = .failed) ∧
    overallProgress
        [⟨"t1", "a.pdf", .pending, 0, .vUndefined, .vUndefined⟩,
         ⟨"t2", "b.pdf", .processing, 50, .vUndefined, .vUndefined⟩,
         ⟨"t3", "c.pdf", .completed, 100, .vObj 0, .vUndefined⟩] = 50 ∧
    allJobsComplete
        [⟨"t1", "a.pdf", .pending, 0, .vUndefined, .vUndefined⟩,
         ⟨"t2", "b.pdf", .processing, 50, .vUndefined, .vUndefined⟩,
         ⟨"t3", "c.pdf", .completed, 100, .vObj 0, .vUndefined⟩] = false ∧
    allJobsComplete
        [⟨"t1", "a.pdf", .failed, 0, .vUndefined, .vStr "boom"⟩,
         ⟨"t2", "b.pdf", .completed, 100, .vObj 1, .vUndefined⟩,
         ⟨"t3", "c.pdf", .completed, 100, .vObj 0, .vUndefined⟩] = true := by
  have h0 : ¬ jobs.length = 0 := by
    simpa [List.length_eq_zero] using h
  refine ⟨?_, ?_, by decide, by decide, by decide⟩
  · unfold overallProgress
    rw [if_neg h0, foldl_progress_sum jobs 0, zero_add]
  · unfold allJobsComplete
    rw [if_neg h0]
    simp [List.all_eq_true]

/-- C5 (witness): the amended theorem applied to a concrete singleton
tracked set. -/
theorem c5_aggregate_witness :
    overallProgress
        [⟨"t1", "a.pdf", .processing, 40, .vUndefined, .vUndefined⟩] =
      jsRoundDiv
        (([⟨"t1", "a.pdf", .processing, 40, .vUndefined, .vUndefined⟩] :
            List ProcessingJob).map fun j => j.progress).sum
        (([⟨"t1", "a.pdf", .processing, 40, .vUndefined, .vUndefined⟩] :
            List ProcessingJob).length : Int) :=
  (c5_aggregate_correctness
    [⟨"t1", "a.pdf", .processing, 40, .vUndefined, .vUndefined⟩]
    (by decide)).1

/-- C6: orchestrator seeding. With the socket connected, all uploads
succeeding and the batch call returning distinct `task_ids` (one per
input file, in order), `startBatchProcessing` returns exactly those
`task_ids`, emits one `join_task` signal per task id in the same order,
and seeds the registry so that the record at `task_ids[i]` is
`{ task_id: task_ids[i], filename: files[i].name, status: "pending",
progress: 0 }`. -/
theorem c6_orchestrator_seeding (m : JobsMap) (files taskIds : List String)
    (hlen : taskIds.length = files.length) (hnd : taskIds.Nodup) :
    (startBatchProcessing true m files (.ok ()) (.ok taskIds)).1 =
      .ok taskIds ∧
    (startBatchProcessing true m files (.ok ()) (.ok taskIds)).2.2 =
      taskIds ∧
    ∀ t f, (t, f) ∈ taskIds.zip files →
      mapGet (startBatchProcessing true m files (.ok ()) (.ok taskIds)).2.1
          t =
        some (mkPendingJob t f) := by
  obtain ⟨m2, hseed⟩ :=
    seedJobs_length_ok taskIds files m (le_of_eq hlen)
  simp only [startBatchProcessing, Bool.not_true, Bool.false_eq_true,
    if_false, hseed]
  exact ⟨trivial, trivial,
    fun t f hmem => seedJobs_mapGet taskIds files m m2 taskIds hseed hnd t f hmem⟩

/-- C6 (witness): the seeding theorem applied to two concrete files and
two concrete distinct task ids; the registry entry for the second task
id is checked. -/
theorem c6_orchestrator_seeding_witness :
    (startBatchProcessing true [] ["a.pdf", "b.pdf"] (.ok ())
        (.ok ["t1", "t2"])).1 = .ok ["t1", "t2"] ∧
    mapGet
        (startBatchProcessing true [] ["a.pdf", "b.pdf"] (.ok ())
          (.ok ["t1", "t2"])).2.1 "t2" =
      some (mkPendingJob "t2" "b.pdf") :=
  let h := c6_orchestrator_seeding [] ["a.pdf", "b.pdf"] ["t1", "t2"]
    rfl (by decide)
  ⟨h.1, h.2.2 "t2" "b.pdf" (by decide)⟩

end CaseStudy
